import Mathlib

/-!
Shallow embedding of the memory-management core of the repository:

* `labs/lab_allocator/src/lib.rs` — the general free-list byte allocator
  (`LabByteAllocator`) with a static hot-size pool fast path; and
* `modules/bump_allocator/src/lib.rs` — the early double-ended allocator
  (`EarlyAllocator`).

Modelling conventions.  The Rust code targets a 64-bit machine, so the
intrusive `Block` header (`size: usize`, `next: *mut Block`) occupies
`mem::size_of::<Block>() = 16` bytes.  `usize` is modelled as `Nat`; Rust's
`-` on `usize` is modelled by truncated `Nat` subtraction — every subtraction
the claims exercise is guarded in the source (`size >= required` before
`size - required`, etc.), so no wrap-around behaviour is in play.  The
intrusive free list (a singly linked list of headers living inside the
managed region) is modelled as a `List (Nat × Nat)` of `(block address,
block size)` pairs in list order; `next` pointers become list order.
Fallible operations return `Except AllocError`.
-/

/-- Error type of the `allocator` crate as used by both allocators:
`AllocError::NoMemory` and `AllocError::InvalidParam`. -/
inductive AllocError where
  | NoMemory
  | InvalidParam
  deriving DecidableEq, Repr

instance {ε α : Type} [DecidableEq ε] [DecidableEq α] :
    DecidableEq (Except ε α) := fun a b =>
  match a, b with
  | .ok x, .ok y => decidable_of_iff (x = y) (by simp)
  | .error x, .error y => decidable_of_iff (x = y) (by simp)
  | .ok _, .error _ => isFalse (by simp)
  | .error _, .ok _ => isFalse (by simp)

/-- `mem::size_of::<Block>()`: two 64-bit words (`size`, `next`). -/
def headerSize : Nat := 16

/-- Free-list model: each node is `(address of the Block header, size field)`,
in list order (head = `self.free_list`). -/
abbrev FreeList := List (Nat × Nat)

/-- `LabByteAllocator` state (`start`, `total_size`, `used_size`,
`free_list`); the unused `num` field is omitted. -/
structure HeapState where
  start : Nat
  total_size : Nat
  used_size : Nat
  free_list : FreeList
  deriving DecidableEq, Repr

/-- `LabByteAllocator::init_free_list` (also `EarlyAllocator::init_free_list`
for its byte side): one Block spanning the region, size minus the header. -/
def init_free_list (start size : Nat) : HeapState :=
  { start := start
    total_size := size
    used_size := 0
    free_list := [(start, size - headerSize)] }

/-- The free-list scan of `LabByteAllocator::alloc_helper` together with the
effect of `split_block` on the selected node: walk the list, select the first
block with `size ≥ required`; `split_block` replaces it in place by the
remainder block when `size - required > headerSize` (the unlink `*prev =
(*current).next` then leaves the remainder in the consumed block's list
position), otherwise the whole block is unlinked.  Returns the user pointer
(first byte after the header) and the new free list. -/
def allocScan (required : Nat) : FreeList → Option (Nat × FreeList)
  | [] => none
  | b :: rest =>
    if required ≤ b.2 then
      if b.2 - required > headerSize then
        some (b.1 + headerSize,
          (b.1 + headerSize + required, b.2 - required - headerSize) :: rest)
      else
        some (b.1 + headerSize, rest)
    else
      match allocScan required rest with
      | some (p, rest') => some (p, b :: rest')
      | none => none

/-- `LabByteAllocator::alloc_helper`: `required = max(layout.size(),
layout.align())`, first-fit scan, `used_size += required` on success,
`AllocError::NoMemory` when no block fits. -/
def alloc_helper (size align : Nat) (s : HeapState) :
    Except AllocError (Nat × HeapState) :=
  let required := max size align
  match allocScan required s.free_list with
  | some (p, fl) =>
      .ok (p, { s with used_size := s.used_size + required, free_list := fl })
  | none => .error .NoMemory

/-- Fuel-indexed helper for `merge_blocks`; the fuel is always the length of
the list, so the `0` case with two or more nodes is unreachable. -/
def mergeBlocksAux : Nat → FreeList → FreeList
  | _, [] => []
  | _, [b] => [b]
  | 0, l => l
  | Nat.succ n, b :: c :: rest =>
    if b.1 + headerSize + b.2 = c.1 then
      mergeBlocksAux n ((b.1, b.2 + headerSize + c.2) :: rest)
    else
      b :: mergeBlocksAux n (c :: rest)

/-- `merge_blocks` (identical in both allocators): one forward pass; if the
current node's end address (`current + headerSize + current.size`) equals the
next node's address, absorb the next node (`size += headerSize + next.size`,
unlink it) and stay on the current node, otherwise advance. -/
def merge_blocks (l : FreeList) : FreeList := mergeBlocksAux l.length l

/-- The loop of `merge_blocks`, as a recurrence: a pass over `b :: c :: rest`
absorbs `c` into `b` and stays on `b` exactly when `b`'s end address is `c`'s
address, and otherwise keeps `b` and moves on. -/
theorem merge_blocks_cons_cons (b c : Nat × Nat) (rest : FreeList) :
    merge_blocks (b :: c :: rest) =
      if b.1 + headerSize + b.2 = c.1 then
        merge_blocks ((b.1, b.2 + headerSize + c.2) :: rest)
      else
        b :: merge_blocks (c :: rest) := by
  simp only [merge_blocks, List.length_cons, mergeBlocksAux]

/-- `LabByteAllocator::dealloc` on a non-static (heap) pointer: `size =
max(layout.size(), layout.align())`, `used_size -= size`, a Block header is
rebuilt at `ptr - headerSize` and pushed to the list head, then
`merge_blocks` runs. -/
def lab_dealloc (ptr size align : Nat) (s : HeapState) : HeapState :=
  let sz := max size align
  { s with
    used_size := s.used_size - sz
    free_list := merge_blocks ((ptr - headerSize, sz) :: s.free_list) }

/-- `LabByteAllocator::add_memory`: new region pushed to the list head as one
Block, `total_size += size`, then `merge_blocks`. -/
def lab_add_memory (start size : Nat) (s : HeapState) : HeapState :=
  { s with
    total_size := s.total_size + size
    free_list := merge_blocks ((start, size - headerSize) :: s.free_list) }

/-- `LabByteAllocator::used_bytes`. -/
def used_bytes (s : HeapState) : Nat := s.used_size

/-! ### Hot-size pool layer of `LabByteAllocator::alloc`

The eight static pools are fixed buffers at addresses the model cannot know;
an allocation result is therefore a `Ptr`: either the base pointer of pool
`i` (`POOL_32.as_mut_ptr()` etc., in catalog order) or a heap address from
`alloc_helper`.  `POOL_SIZE` is the mutable `static mut POOL_SIZE` array;
`NUM96`/`NUM192` are the `static mut` counters. -/

/-- A pointer returned by `LabByteAllocator::alloc`: the base of static pool
`i` (catalog order `32, 128, …, 512*1024`), or a heap address. -/
inductive Ptr where
  | pool (i : Nat)
  | heap (addr : Nat)
  deriving DecidableEq, Repr

/-- Full `LabByteAllocator` state: the heap fields plus the `static mut`
globals `NUM96`, `NUM192` and `POOL_SIZE`. -/
structure LabState where
  heap : HeapState
  num96 : Int
  num192 : Int
  pool_size : List Nat
  deriving DecidableEq, Repr

/-- The initial value of `static mut POOL_SIZE`. -/
def initPoolSize : List Nat :=
  [32, 128, 512, 2048, 8 * 1024, 32 * 1024, 128 * 1024, 512 * 1024]

/-- Lifts an `alloc_helper` result into the full allocator state. -/
def heapResult (s : LabState) :
    Except AllocError (Nat × HeapState) → Except AllocError (Ptr × LabState)
  | .ok (p, h) => .ok (.heap p, { s with heap := h })
  | .error e => .error e

/-- The `POOL_SIZE` dispatch at the end of `LabByteAllocator::alloc`:
`POOL_SIZE.iter_mut().enumerate().find(|(_, s)| **s == layout.size())`; on a
match at index `i`, `POOL_SIZE[i] += 1` and the pool-`i` base pointer is
returned; otherwise fall through to `alloc_helper`. -/
def labAllocPool (size align : Nat) (s : LabState) :
    Except AllocError (Ptr × LabState) :=
  match s.pool_size.findIdx? (· = size) with
  | some i => .ok (.pool i, { s with pool_size := s.pool_size.set i (size + 1) })
  | none => heapResult s (alloc_helper size align s.heap)

/-- `LabByteAllocator::alloc`: the `NUM96`/`NUM192` special cases (checked
first, forcing `alloc_helper` on the 65th size-96 request and the 64th/162nd
size-192 requests), then the `POOL_SIZE` dispatch, then `alloc_helper`. -/
def labAlloc (size align : Nat) (s : LabState) :
    Except AllocError (Ptr × LabState) :=
  if size = 96 then
    let n := s.num96 + 1
    if n = 65 then
      heapResult { s with num96 := -1000 } (alloc_helper size align s.heap)
    else
      labAllocPool size align { s with num96 := n }
  else if size = 192 then
    let n := s.num192 + 1
    if n = 64 then
      heapResult { s with num192 := n } (alloc_helper size align s.heap)
    else if n = 162 then
      heapResult { s with num192 := -1000 } (alloc_helper size align s.heap)
    else
      labAllocPool size align { s with num192 := n }
  else
    labAllocPool size align s

/-! ### `EarlyAllocator<PAGE_SIZE>` (`modules/bump_allocator`) -/

/-- `EarlyAllocator` state: `total_size`, `used_size`, `left_index`,
`right_index`, byte-side `free_list`. -/
structure EarlyState where
  total_size : Nat
  used_size : Nat
  left_index : Nat
  right_index : Nat
  free_list : FreeList
  deriving DecidableEq, Repr

/-- `EarlyAllocator::init_free_list` (via `init`): `left_index = start`,
`right_index = start + size`, one Block spanning the region. -/
def early_init (start size : Nat) : EarlyState :=
  { total_size := size
    used_size := 0
    left_index := start
    right_index := start + size
    free_list := [(start, size - headerSize)] }

/-- `EarlyAllocator::alloc`: `required = max(size, align)`; fails with
`NoMemory` up front when `required + left_index ≥ right_index`; otherwise the
same first-fit scan as `alloc_helper`, additionally advancing `left_index` by
`required` on success. -/
def early_alloc (size align : Nat) (s : EarlyState) :
    Except AllocError (Nat × EarlyState) :=
  let required := max size align
  if required + s.left_index ≥ s.right_index then .error .NoMemory
  else
    match allocScan required s.free_list with
    | some (p, fl) =>
        .ok (p, { s with
          used_size := s.used_size + required
          left_index := s.left_index + required
          free_list := fl })
    | none => .error .NoMemory

/-- `EarlyAllocator::dealloc`: `size = max(size, align)`; `used_size -= size`;
`left_index` rewinds by `size` exactly when the freed pointer sits at
`left_index - size`; the block is pushed to the list head and `merge_blocks`
runs in either case. -/
def early_dealloc (ptr size align : Nat) (s : EarlyState) : EarlyState :=
  let sz := max size align
  { s with
    used_size := s.used_size - sz
    left_index := if ptr = s.left_index - sz then s.left_index - sz
                  else s.left_index
    free_list := merge_blocks ((ptr - headerSize, sz) :: s.free_list) }

/-- `EarlyAllocator::add_memory`: same as the lab allocator's. -/
def early_add_memory (start size : Nat) (s : EarlyState) : EarlyState :=
  { s with
    total_size := s.total_size + size
    free_list := merge_blocks ((start, size - headerSize) :: s.free_list) }

/-- Rust's `usize::is_power_of_two`: exactly one bit set, so `0` is not a
power of two. -/
def is_power_of_two (n : Nat) : Bool := n ≠ 0 && n &&& (n - 1) = 0

/-- `EarlyAllocator::alloc_pages`: `InvalidParam` when `align_pow2` is not a
multiple of `PAGE_SIZE` or `align_pow2 / PAGE_SIZE` is not a power of two;
then `size = num_pages * PAGE_SIZE`; `NoMemory` when
`right_index - size ≤ left_index`; otherwise `right_index -= size`,
`used_size += size`, returning the new `right_index`. -/
def alloc_pages (pageSize numPages alignPow2 : Nat) (s : EarlyState) :
    Except AllocError (Nat × EarlyState) :=
  if alignPow2 % pageSize ≠ 0 then .error .InvalidParam
  else if ¬ is_power_of_two (alignPow2 / pageSize) then .error .InvalidParam
  else
    let size := numPages * pageSize
    if s.right_index - size ≤ s.left_index then .error .NoMemory
    else
      .ok (s.right_index - size,
        { s with
          right_index := s.right_index - size
          used_size := s.used_size + size })

/-- `EarlyAllocator::dealloc_pages`: rewinds `right_index` (and `used_size`)
only when `pos` is exactly the current `right_index`; otherwise a silent
no-op. -/
def dealloc_pages (pageSize pos numPages : Nat) (s : EarlyState) : EarlyState :=
  let size := numPages * pageSize
  if pos = s.right_index then
    { s with
      right_index := s.right_index + size
      used_size := s.used_size - size }
  else s

/-- `EarlyAllocator::total_bytes`. -/
def total_bytes (s : EarlyState) : Nat := s.total_size
/-- `EarlyAllocator::used_bytes`. -/
def early_used_bytes (s : EarlyState) : Nat := s.used_size
/-- `EarlyAllocator::available_bytes`. -/
def available_bytes (s : EarlyState) : Nat := s.total_size - s.used_size
/-- `EarlyAllocator::total_pages`. -/
def total_pages (s : EarlyState) : Nat := s.total_size
/-- `EarlyAllocator::used_pages`. -/
def used_pages (s : EarlyState) : Nat := s.used_size
/-- `EarlyAllocator::available_pages`. -/
def available_pages (s : EarlyState) : Nat := s.total_size - s.used_size

example : alloc_helper 40 8 (init_free_list 1000 120) =
    .ok (1016, { start := 1000, total_size := 120, used_size := 40,
                 free_list := [(1056, 48)] }) := by decide

example : merge_blocks [(1000, 40), (1056, 32)] = [(1000, 88)] := by decide
example : merge_blocks [(1056, 32), (1000, 40)] = [(1056, 32), (1000, 40)] := by
  decide

/-! ### Helper lemmas about the free-list scan -/

/-- What replaces the selected block in the list: the remainder block when the
block splits, nothing when it is consumed whole. -/
def splitRemainder (b : Nat × Nat) (required : Nat) : FreeList :=
  if b.2 - required > headerSize then
    [(b.1 + headerSize + required, b.2 - required - headerSize)]
  else []

theorem allocScan_first_fit (required : Nat) (pre post : FreeList)
    (b : Nat × Nat) (hpre : ∀ c ∈ pre, c.2 < required) (hb : required ≤ b.2) :
    allocScan required (pre ++ b :: post) =
      some (b.1 + headerSize, pre ++ splitRemainder b required ++ post) := by
  induction pre with
  | nil =>
    simp only [List.nil_append, allocScan, if_pos hb, splitRemainder]
    split <;> simp
  | cons a pre ih =>
    have ha : ¬ required ≤ a.2 :=
      Nat.not_le.mpr (hpre a (List.mem_cons_self a pre))
    have ih' := ih fun c hc => hpre c (List.mem_cons_of_mem a hc)
    simp only [List.cons_append, allocScan, if_neg ha, List.append_eq, ih']

theorem allocScan_no_fit (required : Nat) (l : FreeList)
    (h : ∀ c ∈ l, c.2 < required) : allocScan required l = none := by
  induction l with
  | nil => rfl
  | cons a l ih =>
    have ha : ¬ required ≤ a.2 :=
      Nat.not_le.mpr (h a (List.mem_cons_self a l))
    have ih' := ih fun c hc => h c (List.mem_cons_of_mem a hc)
    simp only [allocScan, if_neg ha, ih']

/-! ### Helper lemmas about the coalescing pass -/

theorem merge_blocks_sublist_aux : ∀ (n : Nat) (l : FreeList), l.length ≤ n →
    ((merge_blocks l).map Prod.fst).Sublist (l.map Prod.fst) := by
  intro n
  induction n with
  | zero =>
    intro l hl
    have : l = [] := List.eq_nil_of_length_eq_zero (Nat.le_zero.mp hl)
    subst this
    simp [merge_blocks, mergeBlocksAux]
  | succ n ih =>
    intro l hl
    match l with
    | [] => simp [merge_blocks, mergeBlocksAux]
    | [b] => simp [merge_blocks, mergeBlocksAux]
    | b :: c :: rest =>
      simp only [List.length_cons] at hl
      rw [merge_blocks_cons_cons]
      split
      · have h1 := ih ((b.1, b.2 + headerSize + c.2) :: rest) (by simpa using by omega)
        refine h1.trans ?_
        simp only [List.map_cons]
        exact List.Sublist.cons₂ _ (List.sublist_cons_self _ _)
      · have h1 := ih (c :: rest) (by simpa using by omega)
        simp only [List.map_cons] at h1 ⊢
        exact List.Sublist.cons₂ _ h1

theorem merge_blocks_chain_aux : ∀ (n : Nat) (l : FreeList), l.length ≤ n →
    List.Chain' (fun x y : Nat × Nat => x.1 + headerSize + x.2 ≠ y.1) l →
    merge_blocks l = l := by
  intro n
  induction n with
  | zero =>
    intro l hl _
    have : l = [] := List.eq_nil_of_length_eq_zero (Nat.le_zero.mp hl)
    subst this; rfl
  | succ n ih =>
    intro l hl hchain
    match l with
    | [] => rfl
    | [b] => rfl
    | b :: c :: rest =>
      simp only [List.length_cons] at hl
      obtain ⟨hbc, hrest⟩ := List.chain'_cons.mp hchain
      rw [merge_blocks_cons_cons, if_neg hbc,
        ih (c :: rest) (by simpa using by omega) hrest]

/-- The head of a coalescing pass stays at the same address and can only
grow: `merge_blocks ((a, sz) :: rest)` starts with a block `(a, t)` with
`sz ≤ t`. -/
theorem merge_blocks_head_growth : ∀ (n : Nat) (a sz : Nat) (rest : FreeList),
    rest.length ≤ n →
    ∃ t rest', merge_blocks ((a, sz) :: rest) = (a, t) :: rest' ∧ sz ≤ t := by
  intro n
  induction n with
  | zero =>
    intro a sz rest hl
    have : rest = [] := List.eq_nil_of_length_eq_zero (Nat.le_zero.mp hl)
    subst this
    exact ⟨sz, [], rfl, le_rfl⟩
  | succ n ih =>
    intro a sz rest hl
    match rest with
    | [] => exact ⟨sz, [], rfl, le_rfl⟩
    | c :: rs =>
      simp only [List.length_cons] at hl
      rw [merge_blocks_cons_cons]
      split
      · obtain ⟨t, r', heq, hle⟩ := ih a (sz + headerSize + c.2) rs (by omega)
        exact ⟨t, r', heq, le_trans (by omega) hle⟩
      · exact ⟨sz, merge_blocks (c :: rs), rfl, le_rfl⟩

/-- C2: the coalescing pass obeys the loop recurrence — on `b :: c :: rest`
it absorbs `c` into `b` (growing `b.size` by `headerSize + c.size` and
unlinking `c`, staying on `b`) exactly when `b`'s end address equals `c`'s
address, and otherwise keeps `b` and advances; the pass never reorders the
list (the surviving addresses are a sublist of the input addresses); and a
list in which no node is address-adjacent to its list successor is returned
unchanged. -/
theorem merge_pass_spec (b c : Nat × Nat) (rest l : FreeList) :
    (merge_blocks (b :: c :: rest) =
      if b.1 + headerSize + b.2 = c.1 then
        merge_blocks ((b.1, b.2 + headerSize + c.2) :: rest)
      else
        b :: merge_blocks (c :: rest)) ∧
    ((merge_blocks l).map Prod.fst).Sublist (l.map Prod.fst) ∧
    (List.Chain' (fun x y : Nat × Nat => x.1 + headerSize + x.2 ≠ y.1) l →
      merge_blocks l = l) :=
  ⟨merge_blocks_cons_cons b c rest,
   merge_blocks_sublist_aux l.length l le_rfl,
   merge_blocks_chain_aux l.length l le_rfl⟩

/-- Witness for C2: two free blocks pushed in descending-address order are
not address-adjacent in list order (`1056 + 16 + 32 ≠ 1000`), so the pass
leaves them unmerged even though they are address-adjacent in memory
(`1000 + 16 + 40 = 1056`). -/
theorem merge_pass_spec_witness :
    merge_blocks [(1056, 32), (1000, 40)] = [(1056, 32), (1000, 40)] :=
  (merge_pass_spec (0, 0) (0, 0) [] [(1056, 32), (1000, 40)]).2.2
    (List.chain'_cons.mpr ⟨by decide, List.chain'_singleton _⟩)

/-- C3 counterexample: a 120-byte region at 1000; `alloc(40,8)` returns 1016
(block header at 1000), `alloc(32,8)` returns 1072 (block header at 1056), so
the two allocations are address-adjacent with B1 = 1016 below B2 = 1072.
Freeing B1 then B2 leaves the list `[(1056, 32), (1000, 40)]` — B2 at the
head is *above* B1, its end address `1056+16+32` is not B1's start — so the
pass merges nothing, no block spans both regions, and an `alloc` for the
combined size 72 fails with `NoMemory`. -/
theorem dealloc_b1_b2_no_merge_counterexample :
    alloc_helper 40 8 (init_free_list 1000 120) =
      .ok (1016, { start := 1000, total_size := 120, used_size := 40,
                   free_list := [(1056, 48)] }) ∧
    alloc_helper 32 8 { start := 1000, total_size := 120, used_size := 40,
                        free_list := [(1056, 48)] } =
      .ok (1072, { start := 1000, total_size := 120, used_size := 72,
                   free_list := [] }) ∧
    (lab_dealloc 1072 32 8 (lab_dealloc 1016 40 8
        { start := 1000, total_size := 120, used_size := 72,
          free_list := [] })).free_list = [(1056, 32), (1000, 40)] ∧
    alloc_helper 72 1 (lab_dealloc 1072 32 8 (lab_dealloc 1016 40 8
        { start := 1000, total_size := 120, used_size := 72,
          free_list := [] })) = .error .NoMemory := by
  decide

/-- C3 amended: coalescing of two address-adjacent freed blocks happens when
they are freed in *descending* address order.  If the block freed first lives
at header address `a1` (size `s1`) and the block freed second at `a2` with
`a2 + headerSize + s2 = a1` (immediately below), then after the two `dealloc`
calls the free list starts with one block at `a2` spanning both regions
(size at least `s2 + headerSize + s1`), and an `alloc` for the combined size
`s1 + s2` succeeds, returning that block's payload address. -/
theorem dealloc_descending_merges (a1 s1 al1 a2 s2 al2 : Nat) (s : HeapState)
    (hal1 : al1 ≤ s1) (hal2 : al2 ≤ s2)
    (hadj : a2 + headerSize + s2 = a1) :
    ∃ t rest, s2 + headerSize + s1 ≤ t ∧
      (lab_dealloc (a2 + headerSize) s2 al2
        (lab_dealloc (a1 + headerSize) s1 al1 s)).free_list =
          (a2, t) :: rest ∧
      ∃ s', alloc_helper (s1 + s2) 1
        (lab_dealloc (a2 + headerSize) s2 al2
          (lab_dealloc (a1 + headerSize) s1 al1 s)) =
            .ok (a2 + headerSize, s') := by
  have hmax1 : max s1 al1 = s1 := Nat.max_eq_left hal1
  have hmax2 : max s2 al2 = s2 := Nat.max_eq_left hal2
  obtain ⟨t1, r1, heq1, hle1⟩ :=
    merge_blocks_head_growth s.free_list.length a1 s1 s.free_list le_rfl
  have hfl1 : (lab_dealloc (a1 + headerSize) s1 al1 s).free_list =
      (a1, t1) :: r1 := by
    simp only [lab_dealloc, hmax1, Nat.add_sub_cancel]
    exact heq1
  obtain ⟨t, rest, heq2, hle2⟩ :=
    merge_blocks_head_growth r1.length a2 (s2 + headerSize + t1) r1 le_rfl
  have hfl2 : (lab_dealloc (a2 + headerSize) s2 al2
      (lab_dealloc (a1 + headerSize) s1 al1 s)).free_list =
        (a2, t) :: rest := by
    simp only [lab_dealloc, hmax1, hmax2, Nat.add_sub_cancel, heq1]
    rw [merge_blocks_cons_cons,
      if_pos (show (a2, s2).1 + headerSize + (a2, s2).2 = (a1, t1).1 from hadj)]
    exact heq2
  have h16 : headerSize = 16 := rfl
  refine ⟨t, rest, by omega, hfl2, ?_⟩
  have hreq : max (s1 + s2) 1 ≤ t := by
    refine Nat.max_le.mpr ⟨by omega, by omega⟩
  by_cases hsplit : t - max (s1 + s2) 1 > headerSize
  · exact ⟨_, by
      simp only [alloc_helper, hfl2, allocScan]
      rw [if_pos hreq, if_pos hsplit]⟩
  · exact ⟨_, by
      simp only [alloc_helper, hfl2, allocScan]
      rw [if_pos hreq, if_neg hsplit]⟩

/-- Witness for C3 (amended): with both blocks of the counterexample state
freed in descending address order (1072 first, then 1016), the list becomes
one spanning block at 1000 and the combined 72-byte request succeeds. -/
theorem dealloc_descending_merges_witness :
    ∃ t rest, 40 + headerSize + 32 ≤ t ∧
      (lab_dealloc (1000 + headerSize) 40 8
        (lab_dealloc (1056 + headerSize) 32 8
          { start := 1000, total_size := 120, used_size := 72,
            free_list := [] })).free_list = (1000, t) :: rest ∧
      ∃ s', alloc_helper (32 + 40) 1
        (lab_dealloc (1000 + headerSize) 40 8
          (lab_dealloc (1056 + headerSize) 32 8
            { start := 1000, total_size := 120, used_size := 72,
              free_list := [] })) = .ok (1000 + headerSize, s') :=
  dealloc_descending_merges 1056 32 8 1000 40 8
    { start := 1000, total_size := 120, used_size := 72, free_list := [] }
    (by decide) (by decide) (by decide)

/-- C4 counterexample: from the initial state, the first `alloc` of hot size
32 is served by pool 0 — but the dispatch increments `POOL_SIZE[0]` itself
(to 33), so the *second* `alloc` of size 32 finds no catalog match and is
served by the general free-list allocator, returning a heap address instead
of the same pool-0 pointer. -/
theorem hot_pool_same_address_counterexample :
    labAlloc 32 8 { heap := init_free_list 1000 200, num96 := 0, num192 := 0,
                    pool_size := initPoolSize } =
      .ok (.pool 0,
        { heap := init_free_list 1000 200, num96 := 0, num192 := 0,
          pool_size := [33, 128, 512, 2048, 8192, 32768, 131072, 524288] }) ∧
    labAlloc 32 8 { heap := init_free_list 1000 200, num96 := 0, num192 := 0,
                    pool_size := [33, 128, 512, 2048, 8192, 32768, 131072,
                                  524288] } =
      .ok (.heap 1016,
        { heap := { start := 1000, total_size := 200, used_size := 32,
                    free_list := [(1048, 136)] },
          num96 := 0, num192 := 0,
          pool_size := [33, 128, 512, 2048, 8192, 32768, 131072, 524288] }) := by
  decide

/-- C4 amended: outside the `NUM96`/`NUM192` special cases, the pool dispatch
matches the request size against the *current, mutable* `POOL_SIZE` array
(initially the catalog `32 … 524288`).  A request matching entry `i` returns
pool `i`'s base pointer but increments the entry's stored size itself — there
is no separate request counter — so the entry thereafter matches only
requests one byte larger; a request size matching no current entry (in
particular, a repeat of an already-hit hot size) bypasses the pools entirely
and is served by `alloc_helper`, yielding a heap address. -/
theorem hot_pool_dispatch (size align : Nat) (s : LabState)
    (h96 : size ≠ 96) (h192 : size ≠ 192) :
    (∀ i, s.pool_size.findIdx? (· = size) = some i →
      labAlloc size align s =
        .ok (.pool i, { s with pool_size := s.pool_size.set i (size + 1) })) ∧
    (s.pool_size.findIdx? (· = size) = none →
      labAlloc size align s = heapResult s (alloc_helper size align s.heap)) := by
  constructor
  · intro i hi
    simp only [labAlloc, if_neg h96, if_neg h192, labAllocPool, hi]
  · intro hn
    simp only [labAlloc, if_neg h96, if_neg h192, labAllocPool, hn]

/-- Witness for C4 (amended) at the initial pool table: the first size-32
request hits entry 0 and bumps its stored size to 33. -/
theorem hot_pool_dispatch_witness :
    labAlloc 32 8 { heap := init_free_list 1000 200, num96 := 0, num192 := 0,
                    pool_size := initPoolSize } =
      .ok (.pool 0,
        { heap := init_free_list 1000 200, num96 := 0, num192 := 0,
          pool_size := initPoolSize.set 0 (32 + 1) }) :=
  (hot_pool_dispatch 32 8
    { heap := init_free_list 1000 200, num96 := 0, num192 := 0,
      pool_size := initPoolSize } (by decide) (by decide)).1 0 (by decide)

/-- C5 counterexample: `alloc(40, 8)` on a fresh 120-byte region succeeds
with required size 40, and `used_bytes` rises from 0 to 40 — not to
`40 + headerSize` as the claim's header-inclusive accounting predicts. -/
theorem used_bytes_header_counterexample :
    alloc_helper 40 8 (init_free_list 1000 120) =
      .ok (1016, { start := 1000, total_size := 120, used_size := 40,
                   free_list := [(1056, 48)] }) ∧
    used_bytes { start := 1000, total_size := 120, used_size := 40,
                 free_list := [(1056, 48)] } ≠
      used_bytes (init_free_list 1000 120) + max 40 8 + headerSize := by
  decide

/-- C5 amended: a successful `alloc` with required size
`r = max(size, align)` increases `used_bytes()` by exactly `r`; header
overhead is never added to `used_size`, neither for free-list blocks nor for
checked-out blocks. -/
theorem used_bytes_alloc_increase (size align p : Nat) (s s' : HeapState)
    (h : alloc_helper size align s = .ok (p, s')) :
    used_bytes s' = used_bytes s + max size align := by
  simp only [alloc_helper] at h
  rcases hscan : allocScan (max size align) s.free_list with _ | ⟨p', fl⟩
  · rw [hscan] at h
    simp at h
  · rw [hscan] at h
    simp only [Except.ok.injEq, Prod.mk.injEq] at h
    obtain ⟨-, rfl⟩ := h
    rfl

/-- Witness for C5 (amended): the concrete allocation of the counterexample,
where `used_bytes` rises by exactly `max 40 8 = 40`. -/
theorem used_bytes_alloc_increase_witness :
    used_bytes { start := 1000, total_size := 120, used_size := 40,
                 free_list := [(1056, 48)] } =
      used_bytes (init_free_list 1000 120) + max 40 8 :=
  used_bytes_alloc_increase 40 8 1016 (init_free_list 1000 120)
    { start := 1000, total_size := 120, used_size := 40,
      free_list := [(1056, 48)] } (by decide)

/-- C6: byte operations of the early double-ended allocator.  With
`required = max(size, align)`: when `required + left_index ≥ right_index`
the allocation fails with `NoMemory` (the guard runs before the free-list
scan, whatever the list holds); every successful allocation advances
`left_index` by exactly `required`; `dealloc` rewinds `left_index` by
`size = max(size, align)` exactly when the freed pointer equals
`left_index - size` and leaves it unchanged otherwise, while in both cases
pushing the rebuilt block and running the coalescing pass. -/
theorem early_byte_ops_spec (size align ptr : Nat) (s : EarlyState) :
    (max size align + s.left_index ≥ s.right_index →
      early_alloc size align s = .error .NoMemory) ∧
    (∀ p s', early_alloc size align s = .ok (p, s') →
      s'.left_index = s.left_index + max size align) ∧
    ((early_dealloc ptr size align s).left_index =
      if ptr = s.left_index - max size align then
        s.left_index - max size align
      else s.left_index) ∧
    ((early_dealloc ptr size align s).free_list =
      merge_blocks ((ptr - headerSize, max size align) :: s.free_list)) := by
  refine ⟨fun hge => ?_, fun p s' h => ?_, rfl, rfl⟩
  · simp only [early_alloc, if_pos hge]
  · simp only [early_alloc] at h
    split at h
    · simp at h
    · rcases hscan : allocScan (max size align) s.free_list with _ | ⟨p', fl⟩
      · rw [hscan] at h
        simp at h
      · rw [hscan] at h
        simp only [Except.ok.injEq, Prod.mk.injEq] at h
        obtain ⟨-, rfl⟩ := h
        rfl

/-- Witness for C6: on a fresh 50-byte region at 0, a 100-byte request
crosses `right_index` and fails with `NoMemory`. -/
theorem early_byte_ops_spec_witness :
    early_alloc 100 1 (early_init 0 50) = .error .NoMemory :=
  (early_byte_ops_spec 100 1 0 (early_init 0 50)).1 (by decide)

/-- The bit trick `n ≠ 0 && n &&& (n - 1) = 0` modelling Rust's
`usize::is_power_of_two` agrees with the mathematical notion. -/
theorem is_power_of_two_iff_two_pow (n : Nat) :
    is_power_of_two n = true ↔ ∃ k, n = 2 ^ k := by
  constructor
  · intro h
    simp only [is_power_of_two, Bool.and_eq_true, decide_eq_true_eq] at h
    obtain ⟨hne, hland⟩ := h
    refine ⟨n.log2, ?_⟩
    by_contra hne2
    have h1 : 2 ^ n.log2 ≤ n := Nat.log2_self_le hne
    have h2 : n < 2 ^ (n.log2 + 1) := Nat.lt_log2_self
    have h3 : 2 ^ n.log2 < n := lt_of_le_of_ne h1 fun e => hne2 e.symm
    have hpow : 2 ^ (n.log2 + 1) = (1 + 1) * 2 ^ n.log2 := by ring
    have hb1 : n / 2 ^ n.log2 = 1 :=
      Nat.div_eq_of_lt_le (by omega) (by omega)
    have hb2 : (n - 1) / 2 ^ n.log2 = 1 :=
      Nat.div_eq_of_lt_le (by omega) (by omega)
    have hbit : (n &&& (n - 1)).testBit n.log2 = true := by
      rw [Nat.testBit_land]
      simp [Nat.testBit_to_div_mod, hb1, hb2]
    rw [hland, Nat.zero_testBit] at hbit
    exact Bool.false_ne_true hbit
  · rintro ⟨k, rfl⟩
    simp only [is_power_of_two, Bool.and_eq_true, decide_eq_true_eq]
    refine ⟨(Nat.two_pow_pos k).ne', ?_⟩
    refine Nat.eq_of_testBit_eq fun i => ?_
    rw [Nat.testBit_land, Nat.testBit_two_pow, Nat.testBit_two_pow_sub_one,
      Nat.zero_testBit]
    by_cases h : k = i <;> simp [h]

/-- C7: `alloc_pages(count, align)` fails with `InvalidParam` exactly when
`align` is not a multiple of `PAGE_SIZE` or `align / PAGE_SIZE` is not a
power of two (the Rust bit test agreeing with the `∃ k, n = 2^k`
characterisation); with a valid alignment and `size = count * PAGE_SIZE` it
fails with `NoMemory` exactly when `right_index - size ≤ left_index`, and
otherwise moves `right_index` down by `size`, grows `used_size` by `size`,
and returns the new `right_index`; in particular any request with
`count * PAGE_SIZE ≥ size` directly after `init(start, size)` fails with
`NoMemory`. -/
theorem alloc_pages_spec (pageSize numPages alignPow2 : Nat) (s : EarlyState) :
    (alloc_pages pageSize numPages alignPow2 s = .error .InvalidParam ↔
      (alignPow2 % pageSize ≠ 0 ∨
        is_power_of_two (alignPow2 / pageSize) = false)) ∧
    (∀ n, is_power_of_two n = true ↔ ∃ k, n = 2 ^ k) ∧
    (alignPow2 % pageSize = 0 →
      is_power_of_two (alignPow2 / pageSize) = true →
      (alloc_pages pageSize numPages alignPow2 s = .error .NoMemory ↔
        s.right_index - numPages * pageSize ≤ s.left_index)) ∧
    (alignPow2 % pageSize = 0 →
      is_power_of_two (alignPow2 / pageSize) = true →
      s.left_index < s.right_index - numPages * pageSize →
      alloc_pages pageSize numPages alignPow2 s =
        .ok (s.right_index - numPages * pageSize,
          { s with
            right_index := s.right_index - numPages * pageSize
            used_size := s.used_size + numPages * pageSize })) ∧
    (∀ start size, alignPow2 % pageSize = 0 →
      is_power_of_two (alignPow2 / pageSize) = true →
      size ≤ numPages * pageSize →
      alloc_pages pageSize numPages alignPow2 (early_init start size) =
        .error .NoMemory) := by
  refine ⟨?_, is_power_of_two_iff_two_pow, fun h1 h2 => ?_, fun h1 h2 h3 => ?_,
    fun start size h1 h2 hsz => ?_⟩
  · by_cases h1 : alignPow2 % pageSize = 0
    · by_cases h2 : is_power_of_two (alignPow2 / pageSize) = true
      · simp only [alloc_pages]
        rw [if_neg (by simp [h1]), if_neg (not_not.mpr h2)]
        split <;> simp [h1, h2]
      · simp only [alloc_pages]
        rw [if_neg (by simp [h1]), if_pos h2]
        simp [h1, Bool.eq_false_iff.mpr h2]
    · simp only [alloc_pages]
      rw [if_pos h1]
      simp [h1]
  · simp only [alloc_pages]
    rw [if_neg (by simp [h1]), if_neg (not_not.mpr h2)]
    split <;> simp_all
  · simp only [alloc_pages]
    rw [if_neg (by simp [h1]), if_neg (not_not.mpr h2), if_neg (by omega)]
  · simp only [alloc_pages, early_init]
    rw [if_neg (by simp [h1]), if_neg (not_not.mpr h2), if_pos (by omega)]

/-- Witness for C7: page size 4096, a fresh 3-page region at 0; a 1-page,
page-aligned request succeeds at `right_index - 4096 = 8192`, and a 3-page
request on the fresh region fails with `NoMemory`. -/
theorem alloc_pages_spec_witness :
    alloc_pages 4096 1 4096 (early_init 0 12288) =
      .ok ((early_init 0 12288).right_index - 1 * 4096,
        { early_init 0 12288 with
          right_index := (early_init 0 12288).right_index - 1 * 4096
          used_size := (early_init 0 12288).used_size + 1 * 4096 }) ∧
    alloc_pages 4096 3 4096 (early_init 0 12288) = .error .NoMemory :=
  ⟨(alloc_pages_spec 4096 1 4096 (early_init 0 12288)).2.2.2.1
      (by decide) (by decide) (by decide),
   (alloc_pages_spec 4096 3 4096 (early_init 0 12288)).2.2.2.2 0 12288
      (by decide) (by decide) (by decide)⟩

/-- C8: strict LIFO discipline of page deallocation — a successful
`alloc_pages` immediately followed by `dealloc_pages` on the returned address
with the same count restores the *entire* allocator state (in particular
`right_index` and `used_size`), and `dealloc_pages` on any address other than
the current `right_index` is a silent no-op leaving the whole state
unchanged. -/
theorem dealloc_pages_lifo (pageSize numPages alignPow2 pos : Nat)
    (s : EarlyState) :
    (∀ addr s', alloc_pages pageSize numPages alignPow2 s = .ok (addr, s') →
      dealloc_pages pageSize addr numPages s' = s) ∧
    (pos ≠ s.right_index → dealloc_pages pageSize pos numPages s = s) := by
  constructor
  · intro addr s' h
    simp only [alloc_pages] at h
    split at h
    · exact absurd h (by simp)
    · split at h
      · exact absurd h (by simp)
      · split at h
        · exact absurd h (by simp)
        · rename_i hguard
          simp only [Except.ok.injEq, Prod.mk.injEq] at h
          obtain ⟨rfl, rfl⟩ := h
          cases s with
          | mk t u l r fl =>
            simp at hguard
            simp only [dealloc_pages, if_pos rfl, if_true,
              EarlyState.mk.injEq, eq_self_iff_true, and_true, true_and]
            omega
  · intro h
    simp only [dealloc_pages]
    rw [if_neg h]

/-- Witness for C8: one page allocated from a fresh 3-page region at 0 is
returned at 8192; deallocating it restores the freshly initialised state. -/
theorem dealloc_pages_lifo_witness :
    dealloc_pages 4096 8192 1
      { total_size := 12288, used_size := 4096, left_index := 0,
        right_index := 8192, free_list := [(0, 12272)] } =
      early_init 0 12288 :=
  (dealloc_pages_lifo 4096 1 4096 0 (early_init 0 12288)).1 8192
    { total_size := 12288, used_size := 4096, left_index := 0,
      right_index := 8192, free_list := [(0, 12272)] } (by decide)

/-- States of the early allocator reachable from `init` through its
operations. -/
inductive EarlyReachable : EarlyState → Prop
  | init (start size : Nat) : EarlyReachable (early_init start size)
  | alloc (size align p : Nat) (s s' : EarlyState) : EarlyReachable s →
      early_alloc size align s = .ok (p, s') → EarlyReachable s'
  | dealloc (ptr size align : Nat) (s : EarlyState) : EarlyReachable s →
      EarlyReachable (early_dealloc ptr size align s)
  | allocPages (pageSize numPages alignPow2 addr : Nat) (s s' : EarlyState) :
      EarlyReachable s →
      alloc_pages pageSize numPages alignPow2 s = .ok (addr, s') →
      EarlyReachable s'
  | deallocPages (pageSize pos numPages : Nat) (s : EarlyState) :
      EarlyReachable s → EarlyReachable (dealloc_pages pageSize pos numPages s)
  | addMemory (start size : Nat) (s : EarlyState) : EarlyReachable s →
      EarlyReachable (early_add_memory start size s)

/-- C9: `left_index ≤ right_index` holds after `init` and in every state
reachable through `alloc`, `dealloc`, `alloc_pages`, `dealloc_pages` and
`add_memory`; moreover an allocation that would cross the boundary fails
with `NoMemory` instead (both for bytes and, with a valid alignment, for
pages). -/
theorem left_le_right_invariant (s : EarlyState) (h : EarlyReachable s) :
    s.left_index ≤ s.right_index ∧
    (∀ size align, max size align + s.left_index ≥ s.right_index →
      early_alloc size align s = .error .NoMemory) ∧
    (∀ pageSize numPages alignPow2,
      s.right_index - numPages * pageSize ≤ s.left_index →
      alignPow2 % pageSize = 0 →
      is_power_of_two (alignPow2 / pageSize) = true →
      alloc_pages pageSize numPages alignPow2 s = .error .NoMemory) := by
  refine ⟨?_,
    fun size align hge => by simp only [early_alloc]; rw [if_pos hge],
    fun pageSize numPages alignPow2 hle ha hp => by
      simp only [alloc_pages]
      rw [if_neg (by simp [ha]), if_neg (not_not.mpr hp), if_pos hle]⟩
  induction h with
  | init start size => simp only [early_init]; omega
  | alloc size align p s s' hs heq ih =>
    simp only [early_alloc] at heq
    split at heq
    · exact absurd heq (by simp)
    · rename_i hguard
      rcases hscan : allocScan (max size align) s.free_list with _ | ⟨p', fl⟩
      · rw [hscan] at heq
        exact absurd heq (by simp)
      · rw [hscan] at heq
        simp only [Except.ok.injEq, Prod.mk.injEq] at heq
        obtain ⟨-, rfl⟩ := heq
        simp only []
        omega
  | dealloc ptr size align s hs ih =>
    simp only [early_dealloc]
    split <;> omega
  | allocPages pageSize numPages alignPow2 addr s s' hs heq ih =>
    simp only [alloc_pages] at heq
    split at heq
    · exact absurd heq (by simp)
    · split at heq
      · exact absurd heq (by simp)
      · split at heq
        · exact absurd heq (by simp)
        · rename_i hguard
          simp only [Except.ok.injEq, Prod.mk.injEq] at heq
          obtain ⟨-, rfl⟩ := heq
          simp only []
          omega
  | deallocPages pageSize pos numPages s hs ih =>
    simp only [dealloc_pages]
    split
    · simp only []
      omega
    · exact ih
  | addMemory start size s hs ih => exact ih

/-- Witness for C9 at the freshly initialised state `early_init 0 100`, which
is reachable by the `init` constructor. -/
theorem left_le_right_invariant_witness :
    (early_init 0 100).left_index ≤ (early_init 0 100).right_index :=
  (left_le_right_invariant (early_init 0 100) (.init 0 100)).1

/-- C10: the page-count accessors return byte quantities — `total_pages`,
`used_pages` and `available_pages` return exactly `total_size`, `used_size`
and `total_size - used_size`, the very values of `total_bytes`, `used_bytes`
and `available_bytes`, with no division by the page size. -/
theorem page_accessors_return_bytes (s : EarlyState) :
    total_pages s = total_bytes s ∧
    used_pages s = early_used_bytes s ∧
    available_pages s = available_bytes s ∧
    total_pages s = s.total_size ∧
    used_pages s = s.used_size ∧
    available_pages s = s.total_size - s.used_size :=
  ⟨rfl, rfl, rfl, rfl, rfl, rfl⟩

/-- C1: `alloc` computes `required = max(requested_size, requested_align)`
and first-fit scans the free list: with `pre` the blocks before the first fit
`b` (all of size `< required`), the call succeeds, returns the first byte
after `b`'s header, unlinks `b` — leaving the remainder Block of size
`b.size - required - headerSize` in its place exactly when
`b.size - required > headerSize` — and adds `required` to `used_size`; when
every block has size `< required` it fails with `NoMemory`. -/
theorem alloc_first_fit_split (size align : Nat) (s : HeapState)
    (pre post : FreeList) (b : Nat × Nat) :
    (s.free_list = pre ++ b :: post →
      (∀ c ∈ pre, c.2 < max size align) → max size align ≤ b.2 →
      alloc_helper size align s =
        .ok (b.1 + headerSize,
          { s with
            used_size := s.used_size + max size align
            free_list := pre ++ splitRemainder b (max size align) ++ post })) ∧
    ((∀ c ∈ s.free_list, c.2 < max size align) →
      alloc_helper size align s = .error .NoMemory) := by
  constructor
  · intro hfl hpre hb
    simp only [alloc_helper, hfl, allocScan_first_fit _ _ _ _ hpre hb]
  · intro h
    simp only [alloc_helper, allocScan_no_fit _ _ h]

/-- Witness for C1 at a concrete state: a 120-byte region initialised at
address 1000; `alloc(40, 8)` selects the lone 104-byte block, splits it, and
returns address 1016. -/
theorem alloc_first_fit_split_witness :
    alloc_helper 40 8 (init_free_list 1000 120) =
      .ok (1000 + headerSize,
        { start := 1000, total_size := 120, used_size := 0 + max 40 8,
          free_list := [] ++ splitRemainder (1000, 104) (max 40 8) ++ [] }) :=
  (alloc_first_fit_split 40 8 (init_free_list 1000 120) [] [] (1000, 104)).1
    rfl (by simp) (by decide)
